import Mathlib

/-!
Verification of the ensure-ui expectation pipeline.

This file gives a shallow embedding of the core algorithms of the
repository and proves the specification's testable properties about them.
Line-based algorithms are embedded over `List Char` (one list per source
line, mirroring `content.split('\n')` followed by per-line `trim()`), so
that every definition is executable and concrete runs can be checked by
`decide` or `rfl`.

Embedded sources:
* `src/lib/tester.js` — comment extraction (`extractEnsureUIComments`),
  route resolution (`getRouteFromPath`), expectation splitting
  (`splitExpectations`), page testing (`runPageTest`, `runAllTests`),
  `isPageFile`;
* `src/unnamed/part_003` — flow parsing (`parseFlowFile`), flow execution
  (`runFlowTest`), and its variant of `extractEnsureUIComments`.

External collaborators (the text-generation service, the browser) are
abstracted as oracles: functions supplied as parameters that tell each
navigation / generation / execution step's outcome, exactly at the points
where the source awaits a network or browser call.
-/

/-! ## Character-level helpers (JavaScript regex semantics) -/

/-- The whitespace class `\s` of a JavaScript regex, restricted to the
ASCII whitespace characters (space, tab, line feed, carriage return,
vertical tab, form feed).  All inputs treated in this development are
ASCII, where this coincides with the JavaScript class. -/
def jsSpace (c : Char) : Bool :=
  c == ' ' || c == '\t' || c == '\n' || c == '\r' || c == '\x0b' || c == '\x0c'

/-- Greedy `\s*`: drop the maximal run of whitespace. -/
def dropSpaces (cs : List Char) : List Char :=
  cs.dropWhile jsSpace

/-- JavaScript `String.prototype.trim()` over a line of characters. -/
def trimL (cs : List Char) : List Char :=
  ((dropSpaces cs).reverse.dropWhile jsSpace).reverse

/-- ASCII lowercasing, for `i`-flagged (case-insensitive) regex pieces. -/
def lowerC (c : Char) : Char := c.toLower

/-- Case-insensitive literal match: does `cs` start with the (lowercase)
pattern `pat`? -/
def ciPre : List Char → List Char → Bool
  | [], _ => true
  | _ :: _, [] => false
  | p :: ps, c :: cs => (lowerC c == p) && ciPre ps cs

/-- The characters of the literal `ensureUI`, lowercased. -/
def ensureuiChars : List Char := ("ensureui").data

/-! ## `extractEnsureUIComments` — src/lib/tester.js lines 104-137

The comment merge pass.  A line is matched against
`/\/\/\s*ensureUI\s*(.+)/i` (the start marker, which requires at least one
character of text after the marker); subsequent lines are consumed as
continuations while they match `/\/\/\s*(.+)/` and do not themselves match
`/\/\/\s*ensureUI/i`.  JavaScript `String.match` scans start positions
left to right; `//` anchors each attempt, `\s*` is greedy and cannot
backtrack usefully here because `\s` is disjoint from the literals that
follow, so on the trimmed lines the loop operates on, the capture group is
the remainder of the line after the greedy space skip. -/

/-- Attempt `/\/\/\s*ensureUI\s*(.+)/i` anchored at the head of `cs`,
returning the capture group. -/
def tryMarkerHere : List Char → Option (List Char)
  | '/' :: '/' :: rest =>
    let r1 := dropSpaces rest
    if ciPre ensureuiChars r1 then
      let r2 := dropSpaces (r1.drop 8)
      if r2.isEmpty then none else some r2
    else none
  | _ => none

/-- Leftmost match of `/\/\/\s*ensureUI\s*(.+)/i` in a (trimmed) line. -/
def findMarkerText : List Char → Option (List Char)
  | [] => none
  | c :: rest =>
    match tryMarkerHere (c :: rest) with
    | some t => some t
    | none => findMarkerText rest

/-- Attempt `/\/\/\s*(.+)/` anchored at the head of `cs`. -/
def tryCommentHere : List Char → Option (List Char)
  | '/' :: '/' :: rest =>
    let g := dropSpaces rest
    if g.isEmpty then none else some g
  | _ => none

/-- Leftmost match of `/\/\/\s*(.+)/` in a (trimmed) line. -/
def findCommentText : List Char → Option (List Char)
  | [] => none
  | c :: rest =>
    match tryCommentHere (c :: rest) with
    | some t => some t
    | none => findCommentText rest

/-- Test `/\/\/\s*ensureUI/i` (no required trailing text). -/
def hasEnsureUIMarker : List Char → Bool
  | [] => false
  | c :: rest =>
    (match c :: rest with
     | '/' :: '/' :: r => ciPre ensureuiChars (dropSpaces r)
     | _ => false) || hasEnsureUIMarker rest

/-- The start-marker capture of a raw source line: the line is trimmed and
matched against `/\/\/\s*ensureUI\s*(.+)/i` (tester.js line 113). -/
def markerVal (l : List Char) : Option (List Char) :=
  findMarkerText (trimL l)

/-- The continuation text of a raw source line: the line is trimmed,
matched against `/\/\/\s*(.+)/`, rejected when it itself contains an
`ensureUI` marker, and the capture is trimmed (tester.js lines 120-123). -/
def contVal (l : List Char) : Option (List Char) :=
  let tl := trimL l
  match findCommentText tl with
  | some g => if hasEnsureUIMarker tl then none else some (trimL g)
  | none => none

/-- One merged comment block: `{ text, lineNumber }` with `lineNumber`
1-based (tester.js lines 132-135). -/
structure RawComment where
  text : List Char
  lineNumber : Nat
deriving DecidableEq, Repr

/-- The merge pass of `extractEnsureUIComments` (tester.js lines 110-137)
as a single forward scan.  `idx` is the 0-based index of the current line;
the second state component is `some (acc, startLine)` while inside a
block.  On a marker line the block opens with the trimmed capture; each
continuation appends a single space and its trimmed capture; the first
non-continuation line closes the block and is immediately reconsidered as
a potential new marker — exactly the `i = currentLine - 1` resumption of
the source loop. -/
def mergeGo (idx : Nat) (lines : List (List Char)) (cur : Option (List Char × Nat)) :
    List RawComment :=
  match lines with
  | [] =>
    match cur with
    | some (acc, sl) => [⟨acc, sl⟩]
    | none => []
  | l :: rest =>
    match cur with
    | some (acc, sl) =>
      match contVal l with
      | some t => mergeGo (idx + 1) rest (some (acc ++ ' ' :: t, sl))
      | none =>
        ⟨acc, sl⟩ ::
          (match markerVal l with
           | some t0 => mergeGo (idx + 1) rest (some (trimL t0, idx + 1))
           | none => mergeGo (idx + 1) rest none)
    | none =>
      match markerVal l with
      | some t0 => mergeGo (idx + 1) rest (some (trimL t0, idx + 1))
      | none => mergeGo (idx + 1) rest none

/-- `extractEnsureUIComments`'s raw-comment list for a file given as a
list of source lines. -/
def extractRawComments (lines : List (List Char)) : List RawComment :=
  mergeGo 0 lines none

/-! ## `isPageFile` — src/lib/tester.js lines 172-179 -/

/-- `^page\.(js|jsx|ts|tsx)$`: the filename is exactly one of the four
`page.*` names. -/
def pagePattern (s : List Char) : Bool :=
  s == ("page.js").data || s == ("page.jsx").data ||
  s == ("page.ts").data || s == ("page.tsx").data

/-- `^index\.(js|jsx|ts|tsx)$`. -/
def indexPattern (s : List Char) : Bool :=
  s == ("index.js").data || s == ("index.jsx").data ||
  s == ("index.ts").data || s == ("index.tsx").data

/-- `\.(js|jsx|ts|tsx)$`: the filename ends in one of the four
extensions. -/
def extPattern (s : List Char) : Bool :=
  (".js").data.isSuffixOf s || (".jsx").data.isSuffixOf s ||
  (".ts").data.isSuffixOf s || (".tsx").data.isSuffixOf s

/-- `isPageFile` (tester.js lines 172-179): some of the three patterns
matches. -/
def isPageFile (s : List Char) : Bool :=
  pagePattern s || indexPattern s || extPattern s

/-! ## Route parameter substitution — src/lib/tester.js lines 202-211

`getRouteFromPath` ends with
`route.replace(/\[([^\]]+)\]/g, (match, param) => ...)` whose callback
substitutes `urlParams[cleanParam]` and throws when the key is absent.
The global regex scans left to right: a match is a `[`, a maximal nonempty
run of non-`]` characters, and a `]`; `[]` and an unterminated `[` are not
matches and are copied verbatim.  The embedding is a single left-to-right
scan; the state is `some inner` while between an opening `[` and the next
`]`. -/

/-- `param.startsWith('...') ? param.slice(3) : param` (tester.js
line 203). -/
def cleanName : List Char → List Char
  | '.' :: '.' :: '.' :: rest => rest
  | inner => inner

/-- The exact error thrown by the substitution callback (tester.js
lines 209-210). -/
def routeParamErr (inner : List Char) : String :=
  "Route parameter '[" ++ String.mk inner ++
    "]' required but not specified in test expectations. \nExample: \"// ensureUI: test page with " ++
    String.mk (cleanName inner) ++ " 123\""

/-- The `replace` scan.  `st = some inner` holds the characters read since
an unmatched `[`.  On `]` with a nonempty `inner`, the callback runs:
substitute the parameter value or fail with `routeParamErr`.  On `]` with
an empty `inner` the regex has no match there, so `[]` is copied.  An
unterminated `[` at end of input is likewise copied. -/
def substGo (params : List (String × String)) :
    List Char → Option (List Char) → Except String (List Char)
  | [], none => Except.ok []
  | [], some inner => Except.ok ('[' :: inner)
  | c :: rest, none =>
    if c == '[' then substGo params rest (some [])
    else (substGo params rest none).map (fun out => c :: out)
  | c :: rest, some inner =>
    if c == ']' then
      if inner.isEmpty then
        (substGo params rest none).map (fun out => '[' :: ']' :: out)
      else
        match params.lookup (String.mk (cleanName inner)) with
        | some v => (substGo params rest none).map (fun out => v.data ++ out)
        | none => Except.error (routeParamErr inner)
    else substGo params rest (some (inner ++ [c]))

/-- The dynamic-segment substitution step of `getRouteFromPath`. -/
def substRouteParams (params : List (String × String)) (route : List Char) :
    Except String (List Char) :=
  substGo params route none

/-- The dynamic segments (`[name]` capture groups) of a route, in the
order the same global scan finds them. -/
def dynSegsGo : List Char → Option (List Char) → List (List Char)
  | [], _ => []
  | c :: rest, none =>
    if c == '[' then dynSegsGo rest (some []) else dynSegsGo rest none
  | c :: rest, some inner =>
    if c == ']' then
      if inner.isEmpty then dynSegsGo rest none
      else inner :: dynSegsGo rest none
    else dynSegsGo rest (some (inner ++ [c]))

/-- The dynamic segments of a route string. -/
def dynSegments (route : List Char) : List (List Char) :=
  dynSegsGo route none

/-! ## Flow document parsing — src/unnamed/part_003 lines 629-717

Data model of `parseFlowFile`'s output (the `type: 'flow'` tag and
screenshot bookkeeping are constants of the parser and are omitted;
every field the claims mention is present). -/

/-- One numbered step of a flow (part_003 lines 688-694). -/
structure FlowStep where
  description : String
  url : Option String
  passed : Bool
  error : Option String
  generatedCode : Option String
deriving DecidableEq, Repr

/-- One parsed flow (part_003 lines 655-663); the source field
`variables` is a reserved word in Lean and is embedded as `vars`. -/
structure FlowDef where
  name : String
  description : String
  steps : List FlowStep
  vars : List (String × String)
  passed : Bool
  error : Option String
deriving DecidableEq, Repr

/-- `\w` of a JavaScript regex. -/
def jsWord (c : Char) : Bool :=
  (('a' ≤ c) && (c ≤ 'z')) || (('A' ≤ c) && (c ≤ 'Z')) ||
  (('0' ≤ c) && (c ≤ '9')) || c == '_'

/-- Attempt `@(\w+)\s*=\s*(.+)` anchored at the head: an `@`, a maximal
nonempty word run, optional spaces, `=`, optional spaces, and a nonempty
remainder.  (Backtracking cannot help: `\w`, `\s` and `=` are pairwise
disjoint.) -/
def tryVarHere : List Char → Option (List Char × List Char)
  | '@' :: rest =>
    let name := rest.takeWhile jsWord
    if name.isEmpty then none
    else
      match dropSpaces (rest.dropWhile jsWord) with
      | '=' :: rest2 =>
        let value := dropSpaces rest2
        if value.isEmpty then none else some (name, value)
      | _ => none
  | _ => none

/-- Leftmost match of `/@(\w+)\s*=\s*(.+)/` in a line (part_003
line 677). -/
def findVar : List Char → Option (List Char × List Char)
  | [] => none
  | c :: rest =>
    match tryVarHere (c :: rest) with
    | some r => some r
    | none => findVar rest

/-- `varMatch[2].replace(/["']/g, '')` (part_003 line 679): strip every
single and double quote from the value. -/
def stripQuotes (cs : List Char) : List Char :=
  cs.filter (fun c => !(c == '"' || c == '\x27'))

/-- Anchored `^(\d+)\. (.+)`: digits, a literal dot, a literal space, and
a nonempty remainder (part_003 line 685). -/
def tryStep (cs : List Char) : Option (List Char) :=
  let ds := cs.takeWhile Char.isDigit
  if ds.isEmpty then none
  else
    match cs.dropWhile Char.isDigit with
    | '.' :: ' ' :: rest => if rest.isEmpty then none else some rest
    | _ => none

/-- The four navigation phrases of `extractUrl`, lowercased, tried in the
alternation order of `/(?:navigate to|go to|visit|on page)\s+([\w\/\-]+)/i`
(part_003 line 711). -/
def navPhrases : List (List Char) :=
  [("navigate to").data, ("go to").data, ("visit").data, ("on page").data]

/-- A character of the capture class `[\w\/\-]`. -/
def navPathChar (c : Char) : Bool :=
  jsWord c || c == '/' || c == '-'

/-- Attempt one phrase followed by `\s+` then a nonempty `[\w\/\-]+` run,
anchored at the head of `cs`. -/
def tryNavPhrase (phrase cs : List Char) : Option (List Char) :=
  if ciPre phrase cs then
    let rest := cs.drop phrase.length
    if (rest.takeWhile jsSpace).isEmpty then none
    else
      let path := (dropSpaces rest).takeWhile navPathChar
      if path.isEmpty then none else some path
  else none

/-- Attempt any of the four phrases at the head of `cs`, in alternation
order. -/
def tryNavHere (cs : List Char) : Option (List Char) :=
  match tryNavPhrase (("navigate to").data) cs with
  | some p => some p
  | none =>
    match tryNavPhrase (("go to").data) cs with
    | some p => some p
    | none =>
      match tryNavPhrase (("visit").data) cs with
      | some p => some p
      | none => tryNavPhrase (("on page").data) cs

/-- Leftmost match of the navigation-phrase regex. -/
def findNavPath : List Char → Option (List Char)
  | [] => none
  | c :: rest =>
    match tryNavHere (c :: rest) with
    | some p => some p
    | none => findNavPath rest

/-- `extractUrl` (part_003 lines 710-717): on a match, prefix the capture
with `/` when needed and prepend the deployment URL. -/
def extractUrl (deploymentUrl : String) (stepDescription : String) : Option String :=
  match findNavPath stepDescription.data with
  | some p =>
    let path := if p.head? == some '/' then String.mk p else String.mk ('/' :: p)
    some (deploymentUrl ++ path)
  | none => none

/-- JavaScript object assignment `variables[name] = value`: overwrite an
existing key, else append. -/
def setVar (kvs : List (String × String)) (k v : String) : List (String × String) :=
  if kvs.any (fun p => p.1 == k) then
    kvs.map (fun p => if p.1 == k then (k, v) else p)
  else kvs ++ [(k, v)]

/-- A fresh flow for a `# Name` heading (part_003 lines 655-663). -/
def newFlow (name : String) : FlowDef :=
  { name := name, description := "", steps := [], vars := [],
    passed := false, error := none }

/-- A fresh step for a numbered line (part_003 lines 688-694). -/
def mkStep (deploymentUrl : String) (desc : String) : FlowStep :=
  { description := desc, url := extractUrl deploymentUrl desc,
    passed := false, error := none, generatedCode := none }

/-- The line loop of `parseFlowFile` (part_003 lines 639-701).  Note the
faithful quirk of line 643: `if (!line || line.startsWith('```'))`
toggles `inCodeBlock` on EMPTY lines as well as on fences. -/
def parseFlowGo (deploymentUrl : String) :
    List (List Char) → Bool → Option FlowDef → List FlowDef → List FlowDef
  | [], _, cur, acc =>
    match cur with
    | some f => acc ++ [f]
    | none => acc
  | l :: rest, inCB, cur, acc =>
    let line := trimL l
    if line.isEmpty || ("```").data.isPrefixOf line then
      parseFlowGo deploymentUrl rest (!inCB) cur acc
    else if inCB then
      parseFlowGo deploymentUrl rest inCB cur acc
    else if ("# ").data.isPrefixOf line then
      let acc2 := match cur with
        | some f => acc ++ [f]
        | none => acc
      parseFlowGo deploymentUrl rest inCB
        (some (newFlow (String.mk (trimL (line.drop 2))))) acc2
    else
      match cur with
      | none => parseFlowGo deploymentUrl rest inCB none acc
      | some f =>
        if ("> ").data.isPrefixOf line then
          parseFlowGo deploymentUrl rest inCB
            (some { f with description := f.description ++ String.mk (line.drop 2) ++ " " }) acc
        else if line.head? == some '@' then
          match findVar line with
          | some (name, value) =>
            let f2 :=
              { f with vars := setVar f.vars (String.mk name) (String.mk (stripQuotes value)) }
            parseFlowGo deploymentUrl rest inCB (some f2) acc
          | none => parseFlowGo deploymentUrl rest inCB (some f) acc
        else
          match tryStep line with
          | some desc =>
            parseFlowGo deploymentUrl rest inCB
              (some { f with steps := f.steps ++ [mkStep deploymentUrl (String.mk desc)] }) acc
          | none => parseFlowGo deploymentUrl rest inCB (some f) acc

/-- `parseFlowFile` on a document given as a list of lines. -/
def parseFlowLines (deploymentUrl : String) (lines : List (List Char)) : List FlowDef :=
  parseFlowGo deploymentUrl lines false none []

/-! ## Flow execution — src/unnamed/part_003 lines 719-810

`runFlowTest` drives the parsed steps in order.  The environment (browser
navigation, `generateTestCode`, `executeGeneratedTest`, screenshots,
cookie/localStorage snapshots) is abstracted as an oracle giving each
step's outcome.  `executeGeneratedTest` itself never throws (it catches
and returns `false`, lines 484-500); everything else inside the step's
`try` can. -/

/-- Outcome of one flow step, as decided by the environment:

* `navThrow` — `page.goto` or `page.content()` threw, before
  `generateTestCode` was called;
* `genThrow` — `generateTestCode` threw (`step.generatedCode` stays as it
  was);
* `exec code passed` — code was generated and `executeGeneratedTest`
  returned `passed`;
* `postThrow code msg` — the step's code ran successfully but the
  subsequent screenshot / state snapshot threw. -/
inductive StepOutcome where
  | navThrow (msg : String)
  | genThrow (msg : String)
  | exec (code : String) (passed : Bool)
  | postThrow (code : String) (msg : String)

/-- The step loop of `runFlowTest` (part_003 lines 746-797).  Returns the
updated steps together with the list of texts handed to
`generateTestCode`, in call order: the source (line 763) passes
`step.description` verbatim — the flow's variables are never substituted
into it.  On the first failure the loop `break`s: the remaining steps are
returned untouched. -/
def runFlowSteps (out : Nat → StepOutcome) : Nat → List FlowStep → List FlowStep × List String
  | _, [] => ([], [])
  | i, s :: rest =>
    match out i with
    | StepOutcome.navThrow m =>
      ({ s with passed := false, error := some m } :: rest, [])
    | StepOutcome.genThrow m =>
      ({ s with passed := false, error := some m } :: rest, [s.description])
    | StepOutcome.exec c true =>
      let r := runFlowSteps out (i + 1) rest
      ({ s with passed := true, generatedCode := some c } :: r.1, s.description :: r.2)
    | StepOutcome.exec c false =>
      let s2 := { s with passed := false, generatedCode := some c, error := some ("Flow step failed") }
      (s2 :: rest, [s.description])
    | StepOutcome.postThrow c m =>
      ({ s with passed := false, generatedCode := some c, error := some m } :: rest,
        [s.description])

/-- `runFlowTest` (part_003 lines 720-810): run the steps, then
`testResult.passed = steps.every(step => step.passed)` (line 800).
Second component: the texts submitted to code synthesis. -/
def runFlowTest (flow : FlowDef) (out : Nat → StepOutcome) : FlowDef × List String :=
  let r := runFlowSteps out 0 flow.steps
  ({ flow with steps := r.1, passed := r.1.all (fun s => s.passed) }, r.2)

/-! ## Page testing — src/lib/tester.js lines 389-485 and 549-619 -/

/-- One expectation attached to a page (tester.js lines 149-153). -/
structure PageExpectation where
  text : String
  lineNumber : Nat
  originalComment : String
deriving DecidableEq, Repr

/-- A discovered page (tester.js lines 88-94; `filePath` and
`rawExpectations` are carried through unchanged and omitted here). -/
structure PageInfo where
  route : String
  url : String
  expectations : List PageExpectation
deriving DecidableEq, Repr

/-- One record of `testResult.generatedTests` (tester.js lines 448-454
and 464-470). -/
structure GeneratedTest where
  expectation : String
  lineNumber : Nat
  generatedCode : Option String
  passed : Bool
  error : Option String
deriving DecidableEq, Repr

/-- `testResult.basicChecks` (tester.js lines 399-401). -/
structure BasicChecks where
  pageLoaded : Bool
deriving DecidableEq, Repr

/-- The per-page result (tester.js lines 396-405; `consoleErrors` is
event-driven noise and omitted). -/
structure PageResult where
  passed : Bool
  basicChecks : BasicChecks
  generatedTests : List GeneratedTest
  error : Option String
deriving DecidableEq, Repr

/-- Outcome of one expectation, as decided by the environment:
`genThrow` when `generateTestCode` (or anything else inside the
per-expectation `try`) threw — the record then keeps
`generatedCode: null` (tester.js line 467) — and `ran code passed` when
code was generated and `executeGeneratedTest` returned `passed` (it
catches its own exceptions, lines 501-547). -/
inductive ExpOutcome where
  | genThrow (msg : String)
  | ran (code : String) (passed : Bool)

/-- Outcome of the initial navigation: `page.goto` threw, or returned an
HTTP status. -/
inductive NavOutcome where
  | navThrow (msg : String)
  | status (code : Nat)

/-- The per-expectation loop of `runPageTest` (tester.js lines 437-472).
Every expectation is attempted; there is no short-circuit. -/
def runExpectations (outc : Nat → ExpOutcome) : Nat → List PageExpectation → List GeneratedTest
  | _, [] => []
  | i, e :: rest =>
    (match outc i with
     | ExpOutcome.ran code p =>
       { expectation := e.text, lineNumber := e.lineNumber, generatedCode := some code,
         passed := p, error := if p then none else some ("Assertion failed") }
     | ExpOutcome.genThrow m =>
       { expectation := e.text, lineNumber := e.lineNumber, generatedCode := none,
         passed := false, error := some m })
    :: runExpectations outc (i + 1) rest

/-- `runPageTest` (tester.js lines 389-485).  A navigation throw, or a
non-200 status (which throws `Page failed to load` at line 432), is
caught by the outer handler: `generatedTests` stays empty and
`testResult.passed` stays `false`. -/
def runPageTest (pi : PageInfo) (nav : NavOutcome) (outc : Nat → ExpOutcome) : PageResult :=
  match nav with
  | NavOutcome.navThrow m =>
    { passed := false, basicChecks := { pageLoaded := false }, generatedTests := [],
      error := some m }
  | NavOutcome.status n =>
    if n = 200 then
      let gts := runExpectations outc 0 pi.expectations
      { passed := gts.all (fun t => t.passed), basicChecks := { pageLoaded := true },
        generatedTests := gts, error := none }
    else
      { passed := false, basicChecks := { pageLoaded := false }, generatedTests := [],
        error := some ("Page failed to load: " ++ toString n) }

/-- The page loop of `runAllTests` (tester.js lines 569-588): every
discovered page is tested; a failed page only increments the failure
counter, it never stops the loop. -/
def runAllGo (nav : Nat → NavOutcome) (outc : Nat → Nat → ExpOutcome) :
    Nat → List PageInfo → List PageResult
  | _, [] => []
  | i, p :: rest => runPageTest p (nav i) (outc i) :: runAllGo nav outc (i + 1) rest

/-- `runAllTests`' list of per-page results (tester.js line 587). -/
def runAllTests (pages : List PageInfo) (nav : Nat → NavOutcome)
    (outc : Nat → Nat → ExpOutcome) : List PageResult :=
  runAllGo nav outc 0 pages

/-! ## `splitExpectations` — src/lib/tester.js lines 301-358

The collaborator's reply is modelled as `Except String Json`: `error`
covers a network/HTTP failure of `generateText` and a body on which
`JSON.parse` throws (both JavaScript built-ins); `ok j` is the parsed
JSON value. -/

/-- A JSON value. -/
inductive Json where
  | jnull
  | jbool (b : Bool)
  | jnum (n : Int)
  | jstr (s : String)
  | jarr (xs : List Json)
  | jobj (kvs : List (String × Json))

/-- Property access `parsed.k`: defined members of objects only;
`undefined` is `none`.  (Access on `null` throws a `TypeError`, handled
separately in `validateSplit`.) -/
def getField : Json → String → Option Json
  | Json.jobj kvs, k => kvs.lookup k
  | _, _ => none

/-- `Array.isArray(e) && e.every(x => typeof x === 'string')`, returning
the strings. -/
def asStringArray : Json → Option (List String)
  | Json.jarr xs => xs.mapM (fun j => match j with
      | Json.jstr s => some s
      | _ => none)
  | _ => none

/-- The result shape of a successful split (tester.js lines 347-350). -/
structure SplitResult where
  expectations : List String
  urlParams : Json

/-- The validation of tester.js lines 341-344 on the parsed JSON.
`parsed.expectations` must be a defined, truthy array of strings (every
falsy value fails `Array.isArray` as well, so truthiness adds nothing),
and `typeof parsed.urlParams === 'object' && parsed.urlParams !== null`
accepts exactly arrays and objects.  Property access on a parsed `null`
throws a `TypeError`, which the same `catch` receives, so it is `none`
here too.  A passing `urlParams` is truthy, so `parsed.urlParams || {}`
(line 349) is `urlParams` itself. -/
def validateSplit (j : Json) : Option SplitResult :=
  match j with
  | Json.jnull => none
  | _ =>
    match getField j ("expectations") with
    | none => none
    | some e =>
      match asStringArray e with
      | none => none
      | some exps =>
        match getField j ("urlParams") with
        | some (Json.jarr xs) => some { expectations := exps, urlParams := Json.jarr xs }
        | some (Json.jobj kvs) => some { expectations := exps, urlParams := Json.jobj kvs }
        | _ => none

/-- The fallback of the `catch` branch (tester.js lines 352-357). -/
def fallbackSplit (commentText : String) : SplitResult :=
  { expectations := [commentText], urlParams := Json.jobj [] }

/-- `splitExpectations` (tester.js lines 301-358): any failure — network,
parse, or schema — lands in the `catch` and yields the fallback; the
function always returns normally. -/
def splitExpectations (commentText : String) (llm : Except String Json) : SplitResult :=
  match llm with
  | Except.error _ => fallbackSplit commentText
  | Except.ok j =>
    match validateSplit j with
    | some r => r
    | none => fallbackSplit commentText

/-! ## `extractEnsureUIComments` — src/unnamed/part_003 lines 110-205

This revision distinguishes a single-line marker
`/\/\/\s*ensureUI:\s*(.+)/i` (note the required colon) from a bare
multi-line start marker `/\/\/\s*ensureUI\s*$/i`, whose block is read by
`extractMultiLineExpectation`.  The `type` classification
(`isFlowKeyword`) does not affect which blocks are produced and is
omitted from the embedding. -/

/-- Attempt `/\/\/\s*ensureUI:\s*(.+)/i` anchored at the head. -/
def p3TrySingleHere : List Char → Option (List Char)
  | '/' :: '/' :: rest =>
    let r1 := dropSpaces rest
    if ciPre ensureuiChars r1 then
      match r1.drop 8 with
      | ':' :: r2 =>
        let g := dropSpaces r2
        if g.isEmpty then none else some g
      | _ => none
    else none
  | _ => none

/-- Leftmost match of `/\/\/\s*ensureUI:\s*(.+)/i` (part_003 line 121). -/
def p3SingleText : List Char → Option (List Char)
  | [] => none
  | c :: rest =>
    match p3TrySingleHere (c :: rest) with
    | some t => some t
    | none => p3SingleText rest

/-- Test `/\/\/\s*ensureUI\s*$/i` anchored at the head: the line must end
right after the marker and optional spaces. -/
def p3TryBareHere : List Char → Bool
  | '/' :: '/' :: rest =>
    let r1 := dropSpaces rest
    ciPre ensureuiChars r1 && (dropSpaces (r1.drop 8)).isEmpty
  | _ => false

/-- Leftmost match of the bare start marker `/\/\/\s*ensureUI\s*$/i`
(part_003 line 133). -/
def p3BareMarker : List Char → Bool
  | [] => false
  | c :: rest => p3TryBareHere (c :: rest) || p3BareMarker rest

/-- Leftmost match of `/\/\/\s*(.*)/` — the continuation test of
`extractMultiLineExpectation` (part_003 line 164); the capture may be
empty. -/
def p3CommentText : List Char → Option (List Char)
  | [] => none
  | '/' :: '/' :: rest => some (dropSpaces rest)
  | _ :: rest => p3CommentText rest

/-- The `while` of `extractMultiLineExpectation` (part_003 lines
160-182): consume comment lines, skipping empty captures, space-joining
the trimmed nonempty ones; also count the consumed lines. -/
def p3Multi : List (List Char) → List Char × Nat
  | [] => ([], 0)
  | l :: rest =>
    match p3CommentText (trimL l) with
    | none => ([], 0)
    | some g =>
      let t := trimL g
      let r := p3Multi rest
      if t.isEmpty then (r.1, r.2 + 1)
      else ((t ++ if r.1.isEmpty then [] else ' ' :: r.1), r.2 + 1)

/-- One extracted expectation of the part_003 revision (its `type` and
`endLineNumber` bookkeeping omitted). -/
structure P3Expectation where
  text : List Char
  lineNumber : Nat
deriving DecidableEq, Repr

/-- The main loop of part_003's `extractEnsureUIComments` (lines
117-146), fuelled by the number of remaining lines (each recursive call
strictly shrinks the line list, so the fuel of the wrapper below never
runs out).  After a multi-line block of `n` consumed comment lines the
source sets `i = endLineNumber - 1` and the loop increment lands on the
LAST consumed line: the recursion drops only `n - 1` lines. -/
def p3Go (fuel : Nat) (idx : Nat) (lines : List (List Char)) : List P3Expectation :=
  match fuel with
  | 0 => []
  | fuel + 1 =>
    match lines with
    | [] => []
    | l :: rest =>
      let tl := trimL l
      match p3SingleText tl with
      | some t => ⟨trimL t, idx + 1⟩ :: p3Go fuel (idx + 1) rest
      | none =>
        if p3BareMarker tl then
          let r := p3Multi rest
          if r.1.isEmpty then p3Go fuel (idx + 1) rest
          else ⟨r.1, idx + 1⟩ :: p3Go fuel (idx + r.2) (rest.drop (r.2 - 1))
        else p3Go fuel (idx + 1) rest

/-- part_003's `extractEnsureUIComments` on a file given as lines. -/
def p3ExtractComments (lines : List (List Char)) : List P3Expectation :=
  p3Go (lines.length + 1) 0 lines

/-! ## Theorems -/

/-- Helper for C10: a `page.*` filename also matches the extension
pattern. -/
theorem pagePattern_implies_ext (s : List Char) (h : pagePattern s = true) :
    extPattern s = true := by
  unfold pagePattern at h
  simp only [Bool.or_eq_true, beq_iff_eq] at h
  rcases h with ((h | h) | h) | h <;> subst h <;> decide

/-- Helper for C10: an `index.*` filename also matches the extension
pattern. -/
theorem indexPattern_implies_ext (s : List Char) (h : indexPattern s = true) :
    extPattern s = true := by
  unfold indexPattern at h
  simp only [Bool.or_eq_true, beq_iff_eq] at h
  rcases h with ((h | h) | h) | h <;> subst h <;> decide

/-- C10: `isPageFile` accepts exactly the filenames ending in `.js`,
`.jsx`, `.ts` or `.tsx`; the dedicated `page.*` and `index.*` patterns
are subsumed by the general extension pattern, so every
JavaScript/TypeScript file is a candidate page. -/
theorem isPageFile_extension_subsumption (s : List Char) :
    isPageFile s = extPattern s := by
  unfold isPageFile
  cases hext : extPattern s with
  | true => simp [hext]
  | false =>
    cases hp : pagePattern s with
    | true => rw [pagePattern_implies_ext s hp] at hext; cases hext
    | false =>
      cases hi : indexPattern s with
      | true => rw [indexPattern_implies_ext s hi] at hext; cases hext
      | false => simp

/-- Helper for C1: the substitution scan, from any scan state, either
succeeds with every dynamic segment's (cleaned) name bound in `params`,
or fails with exactly the error message naming the first unbound
segment. -/
theorem substGo_total (params : List (String × String)) :
    ∀ (cs : List Char) (st : Option (List Char)),
      ((∃ out, substGo params cs st = Except.ok out) ∧
        ∀ p ∈ dynSegsGo cs st, (params.lookup (String.mk (cleanName p))).isSome = true)
      ∨ (∃ p, p ∈ dynSegsGo cs st ∧ params.lookup (String.mk (cleanName p)) = none ∧
          substGo params cs st = Except.error (routeParamErr p)) := by
  intro cs
  induction cs with
  | nil =>
    intro st
    cases st with
    | none => exact Or.inl ⟨⟨[], rfl⟩, by simp [dynSegsGo]⟩
    | some inner => exact Or.inl ⟨⟨'[' :: inner, rfl⟩, by simp [dynSegsGo]⟩
  | cons c rest ih =>
    intro st
    cases st with
    | none =>
      by_cases hc : c == '['
      · have := ih (some [])
        simpa [substGo, dynSegsGo, hc] using this
      · rcases ih none with ⟨⟨out, hout⟩, hall⟩ | ⟨p, hp, hnone, herr⟩
        · exact Or.inl ⟨⟨c :: out, by simp [substGo, hc, hout, Except.map]⟩,
            by simpa [dynSegsGo, hc] using hall⟩
        · exact Or.inr ⟨p, by simpa [dynSegsGo, hc] using hp, hnone,
            by simp [substGo, hc, herr, Except.map]⟩
    | some inner =>
      by_cases hc : c == ']'
      · by_cases hin : inner.isEmpty
        · rcases ih none with ⟨⟨out, hout⟩, hall⟩ | ⟨p, hp, hnone, herr⟩
          · exact Or.inl ⟨⟨'[' :: ']' :: out, by simp [substGo, hc, hin, hout, Except.map]⟩,
              by simpa [dynSegsGo, hc, hin] using hall⟩
          · exact Or.inr ⟨p, by simpa [dynSegsGo, hc, hin] using hp, hnone,
              by simp [substGo, hc, hin, herr, Except.map]⟩
        · cases hlk : params.lookup (String.mk (cleanName inner)) with
          | some v =>
            rcases ih none with ⟨⟨out, hout⟩, hall⟩ | ⟨p, hp, hnone, herr⟩
            · refine Or.inl ⟨⟨v.data ++ out, by simp [substGo, hc, hin, hlk, hout, Except.map]⟩, ?_⟩
              intro p hp
              rw [dynSegsGo] at hp
              simp only [hc, if_true, hin, if_false] at hp
              rcases List.mem_cons.mp hp with h | h
              · subst h; simp [hlk]
              · exact hall p h
            · refine Or.inr ⟨p, ?_, hnone, by simp [substGo, hc, hin, hlk, herr, Except.map]⟩
              rw [dynSegsGo]
              simp only [hc, if_true, hin, if_false]
              exact List.mem_cons_of_mem _ hp
          | none =>
            refine Or.inr ⟨inner, ?_, hlk, by simp [substGo, hc, hin, hlk]⟩
            rw [dynSegsGo]
            simp only [hc, if_true, hin, if_false]
            exact List.mem_cons_self _ _
      · have := ih (some (inner ++ [c]))
        simpa [substGo, dynSegsGo, hc] using this

/-- C1: for every route string and parameter map, `getRouteFromPath`'s
dynamic-segment substitution either succeeds — in which case every
dynamic segment `[name]` (catch-all `...` removed) has a caller-supplied
binding that the scan splices in — or throws the error `routeParamErr p`,
which names the exact unresolved segment `p` (it interpolates `'[p]'`);
it never completes while leaving a segment unresolved or defaulted. -/
theorem routeParam_hard_failure (route : List Char) (params : List (String × String)) :
    ((∃ out, substRouteParams params route = Except.ok out) ∧
      ∀ p ∈ dynSegments route, (params.lookup (String.mk (cleanName p))).isSome = true)
    ∨ (∃ p, p ∈ dynSegments route ∧ params.lookup (String.mk (cleanName p)) = none ∧
        substRouteParams params route = Except.error (routeParamErr p)) :=
  substGo_total params route none

/-- Single-space join of continuation texts onto an opening text, in
order — `fullExpectation += ' ' + continuationMatch[1].trim()` iterated. -/
def joinSp (t : List Char) (texts : List (List Char)) : List Char :=
  texts.foldl (fun a x => a ++ ' ' :: x) t

/-- Helper for C2: from an open block, the merge scan consumes exactly
the continuation lines, space-joins their texts onto the accumulator,
emits one `RawComment` anchored at the stored start line, and resumes
scanning at the first non-continuation line. -/
theorem mergeGo_block (rest2 : List (List Char))
    (hstop : ∀ x, rest2.head? = some x → contVal x = none) :
    ∀ (conts : List (List Char)) (texts : List (List Char)) (idx : Nat)
      (acc : List Char) (sl : Nat),
      conts.map contVal = texts.map some →
      mergeGo idx (conts ++ rest2) (some (acc, sl)) =
        ⟨joinSp acc texts, sl⟩ :: mergeGo (idx + conts.length) rest2 none := by
  intro conts
  induction conts with
  | nil =>
    intro texts idx acc sl hc
    have htexts : texts = [] := by
      cases texts with
      | nil => rfl
      | cons t ts => simp at hc
    subst htexts
    cases hr : rest2 with
    | nil => simp [mergeGo, joinSp]
    | cons x r =>
      have hx : contVal x = none := hstop x (by rw [hr]; rfl)
      simp [mergeGo, joinSp, hx]
  | cons c cs ih =>
    intro texts idx acc sl hc
    cases texts with
    | nil => simp at hc
    | cons t ts =>
      simp only [List.map_cons, List.cons.injEq] at hc
      have h1 : contVal c = some t := hc.1
      have h2 : cs.map contVal = ts.map some := hc.2
      have step : mergeGo idx ((c :: cs) ++ rest2) (some (acc, sl)) =
          mergeGo (idx + 1) (cs ++ rest2) (some (acc ++ ' ' :: t, sl)) := by
        simp [mergeGo, h1]
      rw [step, ih ts (idx + 1) (acc ++ ' ' :: t) sl h2]
      have hj : joinSp (acc ++ ' ' :: t) ts = joinSp acc (t :: ts) := rfl
      rw [hj]
      have hl : idx + 1 + cs.length = idx + (c :: cs).length := by
        simp [List.length_cons]; omega
      rw [hl]

/-- C2: a marker line followed by its continuation lines yields exactly
one `RawComment`: the marker capture's trim, space-joined with each
continuation's text in original order, anchored at the marker's 1-based
line number; and the forward scan resumes at the first
non-continuation line, so a consumed continuation line is never
re-processed as a new block start. -/
theorem multiline_comment_merge (idx : Nat) (l : List Char) (t0 : List Char)
    (conts rest2 : List (List Char)) (texts : List (List Char))
    (hm : markerVal l = some t0)
    (hc : conts.map contVal = texts.map some)
    (hstop : ∀ x, rest2.head? = some x → contVal x = none) :
    mergeGo idx (l :: (conts ++ rest2)) none =
      ⟨joinSp (trimL t0) texts, idx + 1⟩ :: mergeGo (idx + 1 + conts.length) rest2 none := by
  have step : mergeGo idx (l :: (conts ++ rest2)) none =
      mergeGo (idx + 1) (conts ++ rest2) (some (trimL t0, idx + 1)) := by
    simp [mergeGo, hm]
  rw [step, mergeGo_block rest2 hstop conts texts (idx + 1) (trimL t0) (idx + 1) hc]

/-- Witness for C2 at a concrete block: marker `// ensureUI check title`
with continuation `// and footer`, stopped by `const x = 1`. -/
theorem multiline_comment_merge_witness :
    mergeGo 0 [("// ensureUI check title").data, ("// and footer").data,
        ("const x = 1").data] none =
      ⟨("check title and footer").data, 1⟩ ::
        mergeGo 2 [("const x = 1").data] none := by
  have h := multiline_comment_merge 0 (("// ensureUI check title").data)
    (("check title").data) [("// and footer").data] [("const x = 1").data]
    [("and footer").data] (by decide) (by decide)
    (by intro x hx; cases hx; decide)
  simpa using h


/-- The result of the steps that ran and passed: each gets
`passed := true` and its generated code recorded. -/
def markPassed (cs : Nat → String) : Nat → List FlowStep → List FlowStep
  | _, [] => []
  | i, s :: rest => { s with passed := true, generatedCode := some (cs i) } :: markPassed cs (i + 1) rest

/-- The failing step's record: `step.passed = stepPassed;
step.error = 'Flow step failed'` (part_003 lines 768-772), with the
generated code that was set just before. -/
def failStep (sk : FlowStep) (cf : String) : FlowStep :=
  { sk with passed := false, generatedCode := some cf, error := some ("Flow step failed") }

/-- Helper for C3: the step loop, started at index `i`, with the steps
before index `pre.length` passing and the step at `pre.length` failing
its execution, marks the passing steps, records the failure on the
failing step, and `break`s — the steps after it are returned exactly as
given and no code is synthesized for them. -/
theorem runFlowSteps_break (out : Nat → StepOutcome) (cs : Nat → String) (cf : String) :
    ∀ (pre : List FlowStep) (i : Nat) (sk : FlowStep) (post : List FlowStep),
      (∀ j, j < pre.length → out (i + j) = StepOutcome.exec (cs (i + j)) true) →
      out (i + pre.length) = StepOutcome.exec cf false →
      runFlowSteps out i (pre ++ sk :: post) =
        (markPassed cs i pre ++ failStep sk cf :: post,
         pre.map (fun s => s.description) ++ [sk.description]) := by
  intro pre
  induction pre with
  | nil =>
    intro i sk post _ hfail
    simp only [List.length_nil, Nat.add_zero] at hfail
    simp [runFlowSteps, hfail, markPassed, failStep]
  | cons s pre ih =>
    intro i sk post hpass hfail
    have h0 : out i = StepOutcome.exec (cs i) true := by
      have := hpass 0 (by simp)
      simpa using this
    have hpass2 : ∀ j, j < pre.length → out ((i + 1) + j) = StepOutcome.exec (cs ((i + 1) + j)) true := by
      intro j hj
      have h := hpass (j + 1) (by simpa using Nat.succ_lt_succ hj)
      have harr : i + (j + 1) = (i + 1) + j := by omega
      rw [harr] at h
      exact h
    have hfail2 : out ((i + 1) + pre.length) = StepOutcome.exec cf false := by
      have harr : i + (s :: pre).length = (i + 1) + pre.length := by
        simp [List.length_cons]; omega
      rw [harr] at hfail
      exact hfail
    have step : runFlowSteps out i ((s :: pre) ++ sk :: post) =
        (({ s with passed := true, generatedCode := some (cs i) } ::
            (runFlowSteps out (i + 1) (pre ++ sk :: post)).1),
          s.description :: (runFlowSteps out (i + 1) (pre ++ sk :: post)).2) := by
      simp [runFlowSteps, h0]
    rw [step, ih (i + 1) sk post hpass2 hfail2]
    simp [markPassed]

/-- C3: for a flow whose steps are `pre ++ [sk] ++ post`, where every
step of `pre` passes and `sk`'s generated code fails its execution,
`runFlowTest` records `passed = true` on each step of `pre`,
`passed = false` with error `Flow step failed` on `sk`, and `break`s:
the steps of `post` are returned exactly as parsed (in particular their
`generatedCode` stays `null`), code synthesis is invoked only for
`pre ++ [sk]`, and the flow's overall `passed` is `false`. -/
theorem flow_short_circuit (flow : FlowDef) (out : Nat → StepOutcome)
    (cs : Nat → String) (cf : String) (pre : List FlowStep) (sk : FlowStep)
    (post : List FlowStep)
    (hsteps : flow.steps = pre ++ sk :: post)
    (hpass : ∀ j, j < pre.length → out j = StepOutcome.exec (cs j) true)
    (hfail : out pre.length = StepOutcome.exec cf false) :
    (runFlowTest flow out).1.steps = markPassed cs 0 pre ++ failStep sk cf :: post
    ∧ (runFlowTest flow out).2 = pre.map (fun s => s.description) ++ [sk.description]
    ∧ (runFlowTest flow out).1.passed = false := by
  have hb := runFlowSteps_break out cs cf pre 0 sk post
    (by intro j hj; simpa using hpass j hj) (by simpa using hfail)
  refine ⟨by simp [runFlowTest, hsteps, hb], by simp [runFlowTest, hsteps, hb], ?_⟩
  have h3 : (runFlowTest flow out).1.passed =
      ((markPassed cs 0 pre ++ failStep sk cf :: post).all (fun s => s.passed)) := by
    simp [runFlowTest, hsteps, hb]
  rw [h3]
  simp [List.all_append, failStep]

/-- The oracle of the C3 witness: step 0 passes, every later attempted
step fails. -/
def witnessOut3 : Nat → StepOutcome :=
  fun n => if n = 0 then StepOutcome.exec ("c0") true else StepOutcome.exec ("cf") false

/-- A parser-default step for the C3 witness. -/
def witnessStep3 (d : String) : FlowStep :=
  { description := d, url := none, passed := false, error := none, generatedCode := none }

/-- Witness for C3 at a flow `[S1(pass), S2(fail), S3]` with
parser-default steps: `S3` comes back exactly as parsed, with
`generatedCode = none`, and only `S1`, `S2` reach code synthesis. -/
theorem flow_short_circuit_witness :
    (runFlowTest
      { name := "f", description := "", steps := [witnessStep3 ("s1"), witnessStep3 ("s2"), witnessStep3 ("s3")],
        vars := [], passed := false, error := none } witnessOut3).1.steps =
      [{ witnessStep3 ("s1") with passed := true, generatedCode := some ("c0") },
       failStep (witnessStep3 ("s2")) ("cf"), witnessStep3 ("s3")]
    ∧ (runFlowTest
      { name := "f", description := "", steps := [witnessStep3 ("s1"), witnessStep3 ("s2"), witnessStep3 ("s3")],
        vars := [], passed := false, error := none } witnessOut3).2 = [("s1" : String), ("s2" : String)] := by
  have h := flow_short_circuit
    { name := "f", description := "", steps := [witnessStep3 ("s1"), witnessStep3 ("s2"), witnessStep3 ("s3")],
      vars := [], passed := false, error := none }
    witnessOut3 (fun _ => "c0") ("cf")
    [witnessStep3 ("s1")] (witnessStep3 ("s2")) [witnessStep3 ("s3")]
    rfl
    (by intro j hj
        have h0 : j = 0 := by simpa using hj
        subst h0
        rfl)
    rfl
  refine ⟨?_, ?_⟩
  · rw [h.1]
    simp [markPassed]
  · rw [h.2.1]
    simp [witnessStep3]

/-- The flow document of the specification's variable-substitution
scenario, line by line. -/
def loginFlowDoc : List (List Char) :=
  [("# Login").data, ("@username = a@b.com").data,
   ("1. Fill in email field with @username").data]

/-- C4 (divergence witness): parsing the scenario document yields the
variable binding `username = a@b.com`, yet the text handed to code
synthesis for the step is the verbatim step description — `@username` is
still in it, not the declared value.  `runFlowTest` copies
`flowInfo.variables` into `flowState` (part_003 lines 728-733) but never
applies them to `step.description` before calling `generateTestCode`
(line 763). -/
theorem flow_variable_not_substituted :
    ∃ f, parseFlowLines ("http://d") loginFlowDoc = [f]
      ∧ f.vars = [("username", "a@b.com")]
      ∧ (runFlowTest f (fun _ => StepOutcome.exec ("code") true)).2 =
          [("Fill in email field with @username")]
      ∧ (runFlowTest f (fun _ => StepOutcome.exec ("code") true)).2 ≠
          [("Fill in email field with a@b.com")] := by
  refine ⟨_, rfl, rfl, rfl, ?_⟩
  decide

/-- A flow document with a numbered step separated from its heading by
one blank line. -/
def checkoutFlowDoc : List (List Char) :=
  [("# Checkout").data, ([] : List Char), ("1. Go to /cart").data]

/-- A flow document whose fenced code block contains a blank line
followed by a numbered line. -/
def fencedFlowDoc : List (List Char) :=
  [("# Pay").data, ("```").data, ("code sample").data, ([] : List Char),
   ("2. Bogus step").data, ("```").data]

/-- C5 (divergence witness): `parseFlowFile` toggles `inCodeBlock` on
every BLANK line as well as on ``` fences (part_003 line 643), so (a) a
step outside any fence but after a blank line is dropped, and (b) a
numbered line inside a fence but after a blank line is parsed as a
step. -/
theorem flow_parser_blank_line_bug :
    (parseFlowLines ("http://d") checkoutFlowDoc).map
        (fun f => (f.name, f.steps.map (fun s => s.description))) =
      [(("Checkout" : String), ([] : List String))]
    ∧ (parseFlowLines ("http://d") fencedFlowDoc).map
        (fun f => (f.name, f.steps.map (fun s => s.description))) =
      [(("Pay" : String), [("Bogus step" : String)])] := by
  exact ⟨rfl, rfl⟩

/-- Helper for C6: every record the expectation loop pushes is
consistent — `passed` is `true` with a `null` error, or `false` with a
message. -/
theorem runExpectations_mem (outc : Nat → ExpOutcome) :
    ∀ (exps : List PageExpectation) (i : Nat) (t : GeneratedTest),
      t ∈ runExpectations outc i exps →
      (t.passed = true ∧ t.error = none) ∨ (t.passed = false ∧ ∃ m, t.error = some m) := by
  intro exps
  induction exps with
  | nil => intro i t ht; simp [runExpectations] at ht
  | cons e rest ih =>
    intro i t ht
    rw [runExpectations] at ht
    rcases List.mem_cons.mp ht with h | h
    · subst h
      cases houtc : outc i with
      | ran code p =>
        cases p with
        | true => exact Or.inl (by simp [houtc])
        | false => exact Or.inr (by simp [houtc])
      | genThrow m => exact Or.inr (by simp [houtc])
    · exact ih (i + 1) t h

/-- C6: after `runPageTest`, every recorded expectation result satisfies
exactly one of `passed = true ∧ error = null` or
`passed = false ∧ error = some message`; no record mixes the two. -/
theorem expectation_result_consistency (pi : PageInfo) (nav : NavOutcome)
    (outc : Nat → ExpOutcome) (t : GeneratedTest)
    (ht : t ∈ (runPageTest pi nav outc).generatedTests) :
    (t.passed = true ∧ t.error = none) ∨ (t.passed = false ∧ ∃ m, t.error = some m) := by
  cases nav with
  | navThrow m => simp [runPageTest] at ht
  | status n =>
    by_cases hn : n = 200
    · rw [runPageTest] at ht
      simp only [hn, if_true] at ht
      exact runExpectations_mem outc pi.expectations 0 t ht
    · rw [runPageTest] at ht
      simp [hn] at ht

/-- A one-expectation page for the C6 and C8 witnesses. -/
def witnessPage : PageInfo :=
  { route := "/about", url := "http://d/about",
    expectations := [{ text := "shows the heading", lineNumber := 3,
                       originalComment := "shows the heading" }] }

/-- The single record produced by the C6 witness run. -/
def witnessRecord : GeneratedTest :=
  { expectation := "shows the heading", lineNumber := 3, generatedCode := some ("c"),
    passed := true, error := none }

/-- Witness for C6: a concrete run whose single record is
`passed = true, error = none`. -/
theorem expectation_result_consistency_witness :
    (witnessRecord.passed = true ∧ witnessRecord.error = none)
    ∨ (witnessRecord.passed = false ∧ ∃ m, witnessRecord.error = some m) :=
  expectation_result_consistency witnessPage (NavOutcome.status 200)
    (fun _ => ExpOutcome.ran ("c") true) witnessRecord
    (by
      have h : (runPageTest witnessPage (NavOutcome.status 200)
          (fun _ => ExpOutcome.ran ("c") true)).generatedTests = [witnessRecord] := rfl
      rw [h]
      exact List.mem_singleton.mpr rfl)

/-- C7: whenever the splitting collaborator's reply fails to parse as
JSON (or the call itself fails) or fails the schema validation
(`expectations` not an array of strings, `urlParams` not a non-null
object), `splitExpectations` returns the original comment text as a
single expectation with an empty `urlParams` object; the function
always returns this fallback normally — the failure never escapes as an
exception for the page. -/
theorem split_fallback_on_invalid (commentText : String) (llm : Except String Json)
    (h : ∀ j, llm = Except.ok j → validateSplit j = none) :
    splitExpectations commentText llm = fallbackSplit commentText := by
  cases llm with
  | error e => rfl
  | ok j =>
    have hv := h j rfl
    simp [splitExpectations, hv]

/-- Witness for C7: a reply whose `expectations` member is a number
fails validation and falls back. -/
theorem split_fallback_on_invalid_witness :
    splitExpectations ("check the title")
        (Except.ok (Json.jobj [(("expectations"), Json.jnum 3)])) =
      fallbackSplit ("check the title") :=
  split_fallback_on_invalid ("check the title") _
    (by intro j hj; cases hj; rfl)

/-- Helper for C8: the page loop produces one result per page. -/
theorem runAllGo_length (nav : Nat → NavOutcome) (outc : Nat → Nat → ExpOutcome) :
    ∀ (pages : List PageInfo) (k : Nat),
      (runAllGo nav outc k pages).length = pages.length := by
  intro pages
  induction pages with
  | nil => intro k; rfl
  | cons p rest ih => intro k; simp [runAllGo, ih (k + 1)]

/-- Helper for C8: the `j`-th result is exactly `runPageTest` of the
`j`-th page. -/
theorem runAllGo_get (nav : Nat → NavOutcome) (outc : Nat → Nat → ExpOutcome) :
    ∀ (pages : List PageInfo) (k j : Nat),
      (runAllGo nav outc k pages)[j]? =
        (pages[j]?).map (fun p => runPageTest p (nav (k + j)) (outc (k + j))) := by
  intro pages
  induction pages with
  | nil => intro k j; simp [runAllGo]
  | cons p rest ih =>
    intro k j
    cases j with
    | zero => simp [runAllGo]
    | succ j =>
      have h := ih (k + 1) j
      have harr : k + (j + 1) = (k + 1) + j := by omega
      simpa [runAllGo, harr] using h

/-- C8: when page `i`'s navigation returns a non-200 status, its result
records `basicChecks.pageLoaded = false` with zero attempted
expectations (`generatedTests = []`), and the run still produces one
result for every discovered page, each being that page's own
`runPageTest`. -/
theorem failed_page_run_continues (pages : List PageInfo) (nav : Nat → NavOutcome)
    (outc : Nat → Nat → ExpOutcome) (i s : Nat)
    (hnav : nav i = NavOutcome.status s) (hs : s ≠ 200) (hi : i < pages.length) :
    (runAllTests pages nav outc).length = pages.length
    ∧ (∀ j, (runAllTests pages nav outc)[j]? =
        (pages[j]?).map (fun p => runPageTest p (nav j) (outc j)))
    ∧ ∃ r, (runAllTests pages nav outc)[i]? = some r
        ∧ r.basicChecks.pageLoaded = false ∧ r.generatedTests = [] ∧ r.passed = false := by
  refine ⟨runAllGo_length nav outc pages 0, ?_, ?_⟩
  · intro j
    simpa using runAllGo_get nav outc pages 0 j
  · obtain ⟨p, hp⟩ : ∃ p, pages[i]? = some p := by
      exact ⟨pages[i], (List.getElem?_eq_getElem hi)⟩
    refine ⟨runPageTest p (nav i) (outc i), ?_, ?_⟩
    · have h := runAllGo_get nav outc pages 0 i
      simpa [hp] using h
    · rw [hnav, runPageTest]
      simp [hs]

/-- Witness for C8: two pages, the first returning HTTP 500; the result
list still covers both pages and the first page's record is empty. -/
theorem failed_page_run_continues_witness :
    (runAllTests [witnessPage, witnessPage]
        (fun n => if n = 0 then NavOutcome.status 500 else NavOutcome.status 200)
        (fun _ _ => ExpOutcome.ran ("c") true)).length = 2
    ∧ (∀ j, (runAllTests [witnessPage, witnessPage]
        (fun n => if n = 0 then NavOutcome.status 500 else NavOutcome.status 200)
        (fun _ _ => ExpOutcome.ran ("c") true))[j]? =
        (([witnessPage, witnessPage])[j]?).map
          (fun p => runPageTest p (if j = 0 then NavOutcome.status 500 else NavOutcome.status 200)
            (fun _ => ExpOutcome.ran ("c") true)))
    ∧ ∃ r, (runAllTests [witnessPage, witnessPage]
        (fun n => if n = 0 then NavOutcome.status 500 else NavOutcome.status 200)
        (fun _ _ => ExpOutcome.ran ("c") true))[0]? = some r
        ∧ r.basicChecks.pageLoaded = false ∧ r.generatedTests = [] ∧ r.passed = false :=
  failed_page_run_continues [witnessPage, witnessPage]
    (fun n => if n = 0 then NavOutcome.status 500 else NavOutcome.status 200)
    (fun _ _ => ExpOutcome.ran ("c") true) 0 500 rfl (by decide) (by decide)

/-- Counterexample for C9: on a bare `// ensureUI` line (no text after
the marker) followed by a plain comment line, the tester.js merge pass
opens NO block at all — the extracted raw-comment list is empty — while
the very same pass does open one when the marker line carries text. -/
theorem bare_marker_no_block_counterexample :
    extractRawComments [("// ensureUI").data, ("// hello").data] = []
    ∧ extractRawComments [("// ensureUI x").data, ("// hello").data] =
        [⟨("x hello").data, 1⟩] := by
  exact ⟨rfl, rfl⟩

/-- C9 (amended): only the part_003 revision's extractor treats a bare
`// ensureUI` line as a block start (reading the following comment lines
as the block body); in `src/lib/tester.js` the start marker requires
text after `ensureUI` on the same line, so the merge pass skips a bare
marker line without opening a block, whatever follows it. -/
theorem bare_marker_two_revisions (idx : Nat) (rest : List (List Char)) :
    mergeGo idx (("// ensureUI").data :: rest) none = mergeGo (idx + 1) rest none
    ∧ p3ExtractComments [("// ensureUI").data, ("// hello").data] =
        [⟨("hello").data, 1⟩] := by
  constructor
  · have hm : markerVal (("// ensureUI").data) = none := by decide
    simp [mergeGo, hm]
  · rfl
